import Mathlib

/-!
Verification of the Sound3D audio streaming engine (AudioStreamer.cpp / Sound3D.cpp)
against its natural-language specification.

The C++ code is shallowly embedded: machine `int` values are modelled as `Int`
(the code keeps them far from overflow except at the documented `unsigned`/`int`
conversion sites, which are modelled explicitly with `toInt32`), `unsigned int`
parameters as `Nat` reduced mod 2^32, files as lists of byte values, and the
external OS / decoder capabilities (ReadFile, mpg123, vorbisfile) as oracle
functions supplied to each operation.
-/

namespace S3D

/-- Modulus of the 32-bit machine words used throughout the C code. -/
def wordMod : Nat := 4294967296

/-- Reinterpretation of an unsigned 32-bit value (a `Nat`, reduced mod 2^32) as a
C `int`: values with the top bit set wrap to negative numbers. -/
def toInt32 (n : Nat) : Int :=
  if n % wordMod < 2147483648 then ((n % wordMod : Nat) : Int)
  else ((n % wordMod : Nat) : Int) - (wordMod : Int)

/-- Byte of a file at an index. Indices at or past the end read as 0, standing for
the NUL terminator region after a path string and zero padding after file data. -/
def byteAt (f : List Nat) (i : Nat) : Nat := f.getD i 0

/-- Little-endian 16-bit load from a byte list, as done by reading a C `short` field. -/
def le16 (f : List Nat) (i : Nat) : Nat := byteAt f i + 256 * byteAt f (i + 1)

/-- Little-endian 32-bit load from a byte list, as done by reading a C `int` field. -/
def le32 (f : List Nat) (i : Nat) : Nat :=
  byteAt f i + 256 * byteAt f (i + 1) + 65536 * byteAt f (i + 2) + 16777216 * byteAt f (i + 3)

/-- State of an `AudioStreamer` (AudioStreamer.h): the open file/decoder handle is
abstracted to the flag `fileOpen` (the code only ever tests `FileHandle` for zero). -/
structure AudioStreamer where
  fileOpen : Bool
  streamSize : Int
  streamPos : Int
  sampleRate : Int
  numChannels : Int
  sampleSize : Int
  sampleBlockSize : Int
deriving DecidableEq

/-- The `IsOpen` accessor of AudioStreamer.h: true exactly when the handle is held. -/
def isOpen (s : AudioStreamer) : Bool := s.fileOpen

/-- The `IsEOS` accessor of AudioStreamer.h: `StreamPos == StreamSize`. -/
def streamerIsEOS (s : AudioStreamer) : Bool := s.streamPos == s.streamSize

/-- Modelled from the spec: the `Available()` accessor used by Sound3D.cpp is not
declared in the copy of AudioStreamer.h in this repository snapshot; the spec
defines it as `streamSizeBytes - streamPosBytes`. -/
def available (s : AudioStreamer) : Int := s.streamSize - s.streamPos

/-- Modelled from the spec: the `BytesPerSecond()` accessor used by Sound3D.cpp is
not declared in the copy of AudioStreamer.h in this repository snapshot; the spec
and the SoundBuffer doc comment define it as Frequency * Channels * SampleBytes. -/
def bytesPerSecond (s : AudioStreamer) : Int := s.sampleRate * s.numChannels * s.sampleSize

/-- Chunk tag "RIFF" as the little-endian `int` the source compares against. -/
def tagRIFF : Nat := 82 + 256 * 73 + 65536 * 70 + 16777216 * 70

/-- Chunk tag "WAVE" as the little-endian `int` the source compares against. -/
def tagWAVE : Nat := 87 + 256 * 65 + 65536 * 86 + 16777216 * 69

/-- Chunk tag "data" as the little-endian `int` the source compares against. -/
def tagData : Nat := 100 + 256 * 97 + 65536 * 116 + 16777216 * 97

/-- WAVHEADER::getDataChunk: the data chunk is looked for only at the two fixed
field offsets of the 68-byte WAVHEADER struct: NextChunk1 at byte 36 and
NextChunk2 at byte 60 (i.e. after the fixed 16-byte `someData` filler). -/
def getDataChunkOff (f : List Nat) : Option Nat :=
  if le32 f 36 = tagData then some 36
  else if le32 f 60 = tagData then some 60
  else none

/-- AudioStreamer::OpenStream (the WAV open). `fileExists` models whether
`file_open_ro` succeeds; `f` is the content of the file. A read of the 68-byte
WAVHEADER fails (returns no bytes) only for an empty file. The `unsigned char`
casts on NumChannels and SampleSize are modelled with `% 256`; BitsPerSample is
taken as its unsigned 16-bit value (real headers keep it far below 2^15). -/
def wavOpenStream (fileExists : Bool) (f : List Nat) (s : AudioStreamer) :
    Bool × AudioStreamer :=
  if s.fileOpen then (false, s)
  else if ¬ fileExists then (false, s)
  else
    let s0 := { s with fileOpen := true }
    if f.length = 0 then (false, s0)
    else if ¬ (le32 f 0 = tagRIFF ∧ le32 f 8 = tagWAVE) then (false, s0)
    else
      match getDataChunkOff f with
      | none => (false, s0)
      | some off =>
        let smpSize : Nat := le16 f 34 / 8 % 256
        let numCh : Nat := le16 f 22 % 256
        (true, { s0 with
          streamSize := toInt32 (le32 f (off + 4)),
          sampleRate := toInt32 (le32 f 24),
          numChannels := (numCh : Int),
          sampleSize := (smpSize : Int),
          sampleBlockSize := ((smpSize * numCh : Nat) : Int) })

/-- AudioStreamer::CloseStream: releases the handle and zeroes every field;
a no-op when the stream is not open. -/
def closeStream (s : AudioStreamer) : AudioStreamer :=
  if s.fileOpen then
    { fileOpen := false, streamSize := 0, streamPos := 0, sampleRate := 0,
      numChannels := 0, sampleSize := 0, sampleBlockSize := 0 }
  else s

/-- AudioStreamer::Seek (the WAV seek). The `unsigned int` parameter is reduced
mod 2^32; the `int(streampos) >= StreamSize` guard goes through `toInt32`; the
position is aligned down with unsigned arithmetic, the file pointer is moved past
the 68-byte WAVHEADER (no observable field change), and `StreamPos` receives the
aligned value converted back to `int`. -/
def wavSeek (s : AudioStreamer) (streampos : Nat) : Nat × AudioStreamer :=
  let sp : Nat := streampos % wordMod
  let sp1 : Nat := if s.streamSize ≤ toInt32 sp then 0 else sp
  let sp2 : Nat := sp1 - sp1 % s.sampleBlockSize.toNat
  (sp2, { s with streamPos := toInt32 sp2 })

/-- MP3Streamer::Seek. `dll` models whether the mpg123 library is loaded. The
sample index `streampos / SampleBlockSize` is handed to `mpg_seek` (repositioning
only the external decoder), `StreamPos` is left untouched, and the byte position
is returned without block alignment. -/
def mp3Seek (dll : Bool) (s : AudioStreamer) (streampos : Nat) : Nat × AudioStreamer :=
  if ¬ dll then (0, s)
  else
    let sp : Nat := streampos % wordMod
    let sp1 : Nat := if s.streamSize ≤ toInt32 sp then 0 else sp
    (sp1, s)

/-- OGGStreamer::Seek. `dll` models whether vorbisfile is loaded. The PCM sample
index is handed to `ov_pcm_seek`; `StreamPos` receives the unaligned byte
position, which is also returned. -/
def oggSeek (dll : Bool) (s : AudioStreamer) (streampos : Nat) : Nat × AudioStreamer :=
  if ¬ dll then (0, s)
  else
    let sp : Nat := streampos % wordMod
    let sp1 : Nat := if s.streamSize ≤ toInt32 sp then 0 else sp
    (sp1, { s with streamPos := toInt32 sp1 })

/-- AudioStreamer::ReadSome (the WAV read). `ioRead n` is the byte count reported
by `file_read` for a request of `n` bytes (the ReadFile oracle). On a reported
failure (no bytes) the cursor jumps to end of stream and 0 is returned; otherwise
the cursor advances by the full aligned request, whatever the oracle reported. -/
def wavReadSome (s : AudioStreamer) (dstSize : Int) (ioRead : Int → Int) :
    Int × AudioStreamer :=
  if ¬ s.fileOpen then (0, s)
  else
    let count0 := s.streamSize - s.streamPos
    if count0 = 0 then (0, s)
    else
      let count1 := if dstSize < count0 then dstSize else count0
      let count := count1 - count1.tmod s.sampleBlockSize
      if ioRead count ≤ 0 then (0, { s with streamPos := s.streamSize })
      else (count, { s with streamPos := s.streamPos + count })

/-- MP3Streamer::ReadSome. `decRead n` is the byte count `mpg_read` stores in its
out-parameter for a request of `n` bytes. The cursor advances by exactly that
count, which is also returned. -/
def mp3ReadSome (dll : Bool) (s : AudioStreamer) (dstSize : Int) (decRead : Int → Int) :
    Int × AudioStreamer :=
  if ¬ dll then (0, s)
  else if ¬ s.fileOpen then (0, s)
  else
    let count0 := s.streamSize - s.streamPos
    if count0 = 0 then (0, s)
    else
      let count1 := if dstSize < count0 then dstSize else count0
      let count := count1 - count1.tmod s.sampleBlockSize
      let bytesRead := decRead count
      (bytesRead, { s with streamPos := s.streamPos + bytesRead })

/-- The accumulation loop of OGGStreamer::ReadSome. `dec k n` is the byte count
`ov_read` returns on its k-th invocation for a request of `n` bytes. The C loop
terminates because a decoder never reports more than requested and every nonzero
report makes progress; that progress bound makes `count.toNat + 1` rounds of fuel
sufficient, and running out of fuel merely stops accumulating early. -/
def oggDecodeLoop (dec : Nat → Int → Int) (count : Int) :
    Nat → Int → Nat → Int
  | _, bytesTotal, 0 => bytesTotal
  | k, bytesTotal, fuel + 1 =>
    let bytesRead := dec k (count - bytesTotal)
    if bytesRead = 0 then bytesTotal
    else
      let bt := bytesTotal + bytesRead
      if bt < count then oggDecodeLoop dec count (k + 1) bt fuel else bt

/-- OGGStreamer::ReadSome. The aligned request is filled by looping on `ov_read`
until it reports 0 bytes or the request is satisfied; the cursor advances by the
accumulated total, which is also returned. -/
def oggReadSome (dll : Bool) (s : AudioStreamer) (dstSize : Int) (dec : Nat → Int → Int) :
    Int × AudioStreamer :=
  if ¬ dll then (0, s)
  else if ¬ s.fileOpen then (0, s)
  else
    let count0 := s.streamSize - s.streamPos
    if count0 = 0 then (0, s)
    else
      let count1 := if dstSize < count0 then dstSize else count0
      let count := count1 - count1.tmod s.sampleBlockSize
      let bytesTotal := oggDecodeLoop dec count 0 0 (count.toNat + 1)
      (bytesTotal, { s with streamPos := s.streamPos + bytesTotal })

/-- The block-aligned request size shared verbatim by the three ReadSome variants:
`min(dstSize, available)` rounded down with the C `%` (truncated modulus). -/
def requestedCount (s : AudioStreamer) (dstSize : Int) : Int :=
  let count0 := s.streamSize - s.streamPos
  let count1 := if dstSize < count0 then dstSize else count0
  count1 - count1.tmod s.sampleBlockSize

/-- The seek step of an ideally behaving streamer variant: the (block-aligned,
in-range) byte position is stored and returned. Used to instantiate the generic
streaming-engine lemmas; each real variant agrees with it on the positions the
engine actually seeks to (its own current decode position). -/
def idealSeek (t : AudioStreamer) (q : Nat) : Nat × AudioStreamer :=
  (q, { t with streamPos := (q : Int) })

/-- The read step of a fully successful decoder: exactly the aligned capped
request is produced and added to the cursor, the common behavior of all three
ReadSome variants when the underlying decoder delivers everything requested. -/
def idealRead (t : AudioStreamer) (n : Int) : Int × AudioStreamer :=
  (requestedCount t n, { t with streamPos := t.streamPos + requestedCount t n })

/-- The audio file format classification of AudioStreamer.cpp. -/
inductive AudioFileFormat where
  | INVALID
  | WAV
  | MP3
  | OGG
deriving DecidableEq

/-- Index of the last occurrence of byte `c` in a list, as found by `strrchr`. -/
def lastIndexOf (f : List Nat) (c : Nat) : Option Nat :=
  match f with
  | [] => none
  | b :: rest =>
    match lastIndexOf rest c with
    | some i => some (i + 1)
    | none => if b = c then some 0 else none

/-- GetExtension: `strrchr` finds the last dot; no dot, or a dot at the very start
of the string, gives 0; otherwise the four bytes starting AT the dot are
reinterpreted as a little-endian `int` (never checking where the extension ends). -/
def getExtension (f : List Nat) : Nat :=
  match lastIndexOf f 46 with
  | none => 0
  | some 0 => 0
  | some i => byteAt f i + 256 * byteAt f (i + 1) + 65536 * byteAt f (i + 2) +
      16777216 * byteAt f (i + 3)

/-- The multi-character constant for ".wav" (bytes dot, w, a, v, little endian). -/
def mciWAV : Nat := 46 + 256 * 119 + 65536 * 97 + 16777216 * 118

/-- The multi-character constant for ".mp3" (bytes dot, m, p, 3, little endian). -/
def mciMP3 : Nat := 46 + 256 * 109 + 65536 * 112 + 16777216 * 51

/-- The multi-character constant for ".ogg" (bytes dot, o, g, g, little endian). -/
def mciOGG : Nat := 46 + 256 * 111 + 65536 * 103 + 16777216 * 103

/-- GetAudioFileFormatByExtension: the first classification pass, switching on the
extension bytes packed into an `int`. -/
def getAudioFileFormatByExtension (f : List Nat) : AudioFileFormat :=
  let ext := getExtension f
  if ext = 0 then AudioFileFormat.INVALID
  else if ext = mciWAV then AudioFileFormat.WAV
  else if ext = mciMP3 then AudioFileFormat.MP3
  else if ext = mciOGG then AudioFileFormat.OGG
  else AudioFileFormat.INVALID

/-- The XAudio2 buffer header produced by CreateXABuffer, reduced to the one field
the streaming state machine reads back: the byte count decoded into it. -/
structure XABuffer where
  audioBytes : Int
deriving DecidableEq

/-- Per-voice binding entry (SO_ENTRY) of SoundStream: base and next decode byte
offsets, the front/back buffers, and the busy re-entrancy flag. -/
structure SOEntry where
  base : Int
  next : Int
  front : Option XABuffer
  back : Option XABuffer
  busy : Bool
deriving DecidableEq

/-- SoundStream::IsEOS as written in Sound3D.cpp:
`return e ? true : (alStream ? (e->next >= alStream->Size()) : true);`
When the binding exists the function answers true outright; when it is missing and
a streamer is loaded, the branch dereferences the null entry pointer, modelled as
`none` (undefined behavior). -/
def soundStreamIsEOS (e : Option SOEntry) (alStream : Option AudioStreamer) : Option Bool :=
  match e with
  | some _ => some true
  | none =>
    match alStream with
    | some _ => none
    | none => some true

/-- CreateXABuffer, generic over the streamer variant: `seekFn`/`readFn` are the
bound `Seek`/`ReadSome` of the variant (each already carrying its oracles). The
`int* pos` in/out parameter is modelled as `Option Int`; the int-to-unsigned
conversion at the `Seek` call site is the mod-2^32 reduction. Allocation is
assumed to succeed (an allocation failure returns null, which no claim covers). -/
def createXABuffer (seekFn : AudioStreamer → Nat → Nat × AudioStreamer)
    (readFn : AudioStreamer → Int → Int × AudioStreamer)
    (size : Int) (s : AudioStreamer) (pos : Option Int) :
    Option XABuffer × AudioStreamer × Option Int :=
  let s1 := match pos with
    | some p => (seekFn s (p % (wordMod : Int)).toNat).2
    | none => s
  if streamerIsEOS s1 then (none, s1, pos)
  else
    let bytesToRead0 := available s1
    let bytesToRead := if size < bytesToRead0 then size else bytesToRead0
    let rr := readFn s1 bytesToRead
    (some { audioBytes := rr.1 }, rr.2, pos.map (fun p => p + rr.1))

/-- SoundStream::Load, reduced to its buffer-producing tail: the streamer is opened
by the caller and the permanently resident first buffer is filled by
`CreateXABuffer(this, alStream->BytesPerSecond(), alStream, 0)` with a null
position pointer. -/
def soundStreamLoad (seekFn : AudioStreamer → Nat → Nat × AudioStreamer)
    (readFn : AudioStreamer → Int → Int × AudioStreamer)
    (st : AudioStreamer) : Option XABuffer × AudioStreamer :=
  let r := createXABuffer seekFn readFn (bytesPerSecond st) st none
  (r.1, r.2.1)

/-- Result of SoundStream::LoadStreamData: the updated binding entry, the updated
streamer, and the buffers submitted to the voice in order. -/
structure LoadResult where
  entry : SOEntry
  streamer : AudioStreamer
  queued : List XABuffer
deriving DecidableEq

/-- SoundStream::LoadStreamData. `xaBuffer` is the permanently resident first
buffer of the asset. Position 0 re-queues that buffer without decoding; any other
position decodes a fresh front buffer. A second (back) buffer is decoded exactly
when more than one second of data remains past the load position; in the
one-buffer case the entry's back slot is left untouched. A null buffer returned
by CreateXABuffer is still submitted by the C code; the submission list only
records real buffers. -/
def loadStreamData (seekFn : AudioStreamer → Nat → Nat × AudioStreamer)
    (readFn : AudioStreamer → Int → Int × AudioStreamer)
    (xaBuffer : XABuffer) (st : AudioStreamer) (e : SOEntry) (streampos : Int) :
    LoadResult :=
  let pos0 : Int := if streampos = -1 then e.next else streampos
  let streamSize : Int := st.streamSize - pos0
  let bps : Int := bytesPerSecond st
  let numBuffers : Nat := if bps < streamSize then 2 else 1
  let front : Option XABuffer × AudioStreamer × Int × List XABuffer :=
    if pos0 = 0 then
      (some xaBuffer, st, pos0 + xaBuffer.audioBytes, [xaBuffer])
    else
      let r := createXABuffer seekFn readFn bps st (some pos0)
      (r.1, r.2.1, (r.2.2).getD pos0, r.1.toList)
  let rest : Option XABuffer × AudioStreamer × Int × List XABuffer :=
    if numBuffers = 2 then
      let r2 := createXABuffer seekFn readFn bps front.2.1 (some front.2.2.1)
      (r2.1, r2.2.1, (r2.2.2).getD front.2.2.1, r2.1.toList)
    else (e.back, front.2.1, front.2.2.1, [])
  { entry := { e with base := pos0, next := rest.2.2.1, front := front.1, back := rest.1 },
    streamer := rest.2.1,
    queued := front.2.2.2 ++ rest.2.2.2 }

/-- SoundStream::BindSource: rejected when no data is loaded; otherwise a fresh
entry is appended, `LoadStreamData(entry, 0)` queues the initial buffers, and the
reference count is incremented. The result carries the new entry, the streamer,
the queued buffers and the new refCount. -/
def bindSource (seekFn : AudioStreamer → Nat → Nat × AudioStreamer)
    (readFn : AudioStreamer → Int → Int × AudioStreamer)
    (xaBuffer : Option XABuffer) (st : AudioStreamer) (refCount : Int) :
    Option (SOEntry × AudioStreamer × List XABuffer × Int) :=
  match xaBuffer with
  | none => none
  | some xa =>
    let e0 : SOEntry := { base := 0, next := 0, front := none, back := none, busy := false }
    let r := loadStreamData seekFn readFn xa st e0 0
    some (r.entry, r.streamer, r.queued, refCount + 1)

/-- Loaded-data state of a SoundBuffer: the decoded buffer (if any) and refCount. -/
structure SoundBufferState where
  xaBuffer : Option XABuffer
  refCount : Int
deriving DecidableEq

/-- SoundBuffer::Unload: trivially true when nothing is loaded; refused without any
state change while referenced; otherwise the buffer is destroyed. -/
def soundBufferUnload (s : SoundBufferState) : Bool × SoundBufferState :=
  match s.xaBuffer with
  | none => (true, s)
  | some _ =>
    if 0 < s.refCount then (false, s)
    else (true, { s with xaBuffer := none })

/-- Loaded-data state of a SoundStream: the resident first buffer, the streamer
and refCount. -/
structure SoundStreamState where
  xaBuffer : Option XABuffer
  alStream : Option AudioStreamer
  refCount : Int
deriving DecidableEq

/-- SoundStream::Unload: trivially true when nothing is loaded; refused without any
state change while referenced; otherwise the buffer and the streamer are freed. -/
def soundStreamUnload (s : SoundStreamState) : Bool × SoundStreamState :=
  match s.xaBuffer with
  | none => (true, s)
  | some _ =>
    if 0 < s.refCount then (false, s)
    else (true, { s with xaBuffer := none, alStream := none })

/-- Values below 2^31 are fixed points of the int reinterpretation. -/
lemma toInt32_of_lt {n : Nat} (h : n < 2147483648) : toInt32 n = (n : Int) := by
  have hlt : n < wordMod := lt_trans h (by norm_num [wordMod])
  simp [toInt32, Nat.mod_eq_of_lt hlt, h]

/-- Unsigned alignment rounds down to a multiple of the block size. -/
lemma dvd_sub_mod (a b : Nat) : b ∣ (a - a % b) := by
  have h := Nat.div_add_mod a b
  exact ⟨a / b, by omega⟩

/-- The aligned request of ReadSome is nonnegative and at most the available data,
whenever the destination size is nonnegative, the block size is positive and the
stream invariant holds. -/
lemma requestedCount_bounds {s : AudioStreamer} {dstSize : Int}
    (hle : s.streamPos ≤ s.streamSize)
    (hdst : 0 ≤ dstSize) (hb : 0 < s.sampleBlockSize) :
    0 ≤ requestedCount s dstSize ∧ requestedCount s dstSize ≤ s.streamSize - s.streamPos := by
  simp only [requestedCount]
  set count0 := s.streamSize - s.streamPos with hc0
  set count1 := if dstSize < count0 then dstSize else count0 with hc1
  have h0 : 0 ≤ count1 ∧ count1 ≤ count0 := by
    rw [hc1]; split <;> omega
  have htm : count1.tmod s.sampleBlockSize = count1 % s.sampleBlockSize :=
    Int.tmod_eq_emod h0.1 (le_of_lt hb)
  have hmodnn : 0 ≤ count1 % s.sampleBlockSize :=
    Int.emod_nonneg count1 (ne_of_gt hb)
  have hmodle : count1 % s.sampleBlockSize ≤ count1 := by
    have := Int.ediv_add_emod count1 s.sampleBlockSize
    have hdiv : 0 ≤ count1 / s.sampleBlockSize := Int.ediv_nonneg h0.1 (le_of_lt hb)
    nlinarith
  constructor
  · omega
  · omega

/-- The aligned request of ReadSome is a multiple of the block size whenever it is
computed from nonnegative inputs. -/
lemma requestedCount_dvd {s : AudioStreamer} {dstSize : Int}
    (hle : s.streamPos ≤ s.streamSize)
    (hdst : 0 ≤ dstSize) (hb : 0 < s.sampleBlockSize) :
    s.sampleBlockSize ∣ requestedCount s dstSize := by
  simp only [requestedCount]
  set count0 := s.streamSize - s.streamPos with hc0
  set count1 := if dstSize < count0 then dstSize else count0 with hc1
  have h0 : 0 ≤ count1 := by rw [hc1]; split <;> omega
  have htm : count1.tmod s.sampleBlockSize = count1 % s.sampleBlockSize :=
    Int.tmod_eq_emod h0 (le_of_lt hb)
  rw [htm]
  exact Int.dvd_sub_of_emod_eq rfl

/-- Moving the cursor leaves the per-second byte rate unchanged. -/
lemma bytesPerSecond_set_pos (t : AudioStreamer) (x : Int) :
    bytesPerSecond { t with streamPos := x } = bytesPerSecond t := rfl

/-- After moving the cursor, the available data is measured from the new position. -/
lemma available_set_pos (t : AudioStreamer) (x : Int) :
    available { t with streamPos := x } = t.streamSize - x := rfl

/-- The aligned request equals the raw request whenever the latter is an in-range
multiple of the block size. -/
lemma requestedCount_of_dvd {t : AudioStreamer} {n : Int}
    (hn : 0 ≤ n) (hnle : n ≤ t.streamSize - t.streamPos)
    (hd : t.sampleBlockSize ∣ n) (hb : 0 < t.sampleBlockSize) :
    requestedCount t n = n := by
  simp only [requestedCount]
  have h1 : (if n < t.streamSize - t.streamPos then n else t.streamSize - t.streamPos) = n := by
    split <;> omega
  rw [h1, Int.tmod_eq_emod hn (le_of_lt hb), Int.emod_eq_zero_of_dvd hd, sub_zero]

/-- The OGG decode loop accumulates within the closed interval from the starting
total to the request, for decoders that never report more than requested. -/
lemma oggDecodeLoop_bounds (dec : Nat → Int → Int)
    (hdec : ∀ k n, 0 ≤ n → 0 ≤ dec k n ∧ dec k n ≤ n)
    (count : Int) :
    ∀ fuel k bytesTotal, 0 ≤ bytesTotal → bytesTotal ≤ count →
      bytesTotal ≤ oggDecodeLoop dec count k bytesTotal fuel ∧
      oggDecodeLoop dec count k bytesTotal fuel ≤ count := by
  intro fuel
  induction fuel with
  | zero => intro k bt h1 h2; simp [oggDecodeLoop]; omega
  | succ n ih =>
    intro k bt h1 h2
    simp only [oggDecodeLoop]
    split
    · omega
    · have hd := hdec k (count - bt) (by omega)
      split
      · have := ih (k + 1) (bt + dec k (count - bt)) (by omega) (by omega)
        omega
      · omega

/-- A successful `strrchr` hit points inside the string. -/
lemma lastIndexOf_lt_length {f : List Nat} {c i : Nat}
    (h : lastIndexOf f c = some i) : i < f.length := by
  induction f generalizing i with
  | nil => simp [lastIndexOf] at h
  | cons b rest ih =>
    simp only [lastIndexOf] at h
    cases hrec : lastIndexOf rest c with
    | some j =>
      rw [hrec] at h
      have hj := ih hrec
      simp at h
      simp [← h]
      omega
    | none =>
      rw [hrec] at h
      by_cases hb : b = c
      · simp [hb] at h; simp [← h]
      · simp [hb] at h

/-- A successful `strrchr` hit reads back the searched byte. -/
lemma lastIndexOf_byteAt {f : List Nat} {c i : Nat}
    (h : lastIndexOf f c = some i) : byteAt f i = c := by
  induction f generalizing i with
  | nil => simp [lastIndexOf] at h
  | cons b rest ih =>
    simp only [lastIndexOf] at h
    cases hrec : lastIndexOf rest c with
    | some j =>
      rw [hrec] at h
      simp at h
      have hj := ih hrec
      simp [byteAt, ← h]
      simpa [byteAt] using hj
    | none =>
      rw [hrec] at h
      by_cases hb : b = c
      · simp [hb] at h; simp [byteAt, ← h, hb]
      · simp [hb] at h

/-- In-bounds bytes of a byte file are below 256 when every entry is. -/
lemma byteAt_lt {f : List Nat} (hf : ∀ b ∈ f, b < 256) {i : Nat}
    (hi : i < f.length) : byteAt f i < 256 := by
  have h2 : f.getD i 0 = f[i] := List.getD_eq_getElem f 0 hi
  rw [byteAt, h2]
  exact hf _ (List.getElem_mem hi)

/-- All three ReadSome variants return 0 and leave the state unchanged when the
available byte count is zero. -/
lemma readSome_at_eos {s : AudioStreamer} (h0 : s.streamSize - s.streamPos = 0)
    (dstSize : Int) (ioRead decRead : Int → Int) (dec : Nat → Int → Int) :
    wavReadSome s dstSize ioRead = (0, s) ∧
    mp3ReadSome true s dstSize decRead = (0, s) ∧
    oggReadSome true s dstSize dec = (0, s) := by
  refine ⟨?_, ?_, ?_⟩ <;> simp [wavReadSome, mp3ReadSome, oggReadSome, h0]

/-- Characterization of the WAV ReadSome away from end of stream: the oracle is
asked for exactly the aligned capped request; on reported failure the result is 0
with the cursor at end of stream, otherwise the full request is both returned
and added to the cursor. -/
lemma wavReadSome_spec {s : AudioStreamer} (hOpen : s.fileOpen = true)
    (h0 : s.streamSize - s.streamPos ≠ 0) (dstSize : Int) (ioRead : Int → Int) :
    wavReadSome s dstSize ioRead =
      if ioRead (requestedCount s dstSize) ≤ 0 then
        (0, { s with streamPos := s.streamSize })
      else
        (requestedCount s dstSize,
          { s with streamPos := s.streamPos + requestedCount s dstSize }) := by
  simp [wavReadSome, requestedCount, hOpen, h0]

/-- Characterization of the MP3 ReadSome away from end of stream: the decoder is
asked for exactly the aligned capped request, and the decoder-reported byte count
is both returned and added to the cursor. -/
lemma mp3ReadSome_spec {s : AudioStreamer} (hOpen : s.fileOpen = true)
    (h0 : s.streamSize - s.streamPos ≠ 0) (dstSize : Int) (decRead : Int → Int) :
    mp3ReadSome true s dstSize decRead =
      (decRead (requestedCount s dstSize),
        { s with streamPos := s.streamPos + decRead (requestedCount s dstSize) }) := by
  simp [mp3ReadSome, requestedCount, hOpen, h0]

/-- Characterization of the OGG ReadSome away from end of stream: the decode loop
is run against the aligned capped request, and the accumulated byte count is both
returned and added to the cursor. -/
lemma oggReadSome_spec {s : AudioStreamer} (hOpen : s.fileOpen = true)
    (h0 : s.streamSize - s.streamPos ≠ 0) (dstSize : Int) (dec : Nat → Int → Int) :
    oggReadSome true s dstSize dec =
      (oggDecodeLoop dec (requestedCount s dstSize) 0 0 ((requestedCount s dstSize).toNat + 1),
        { s with streamPos := (s.streamPos +
            oggDecodeLoop dec (requestedCount s dstSize) 0 0
              ((requestedCount s dstSize).toNat + 1)) }) := by
  simp [oggReadSome, requestedCount, hOpen, h0]

/-- Claim C1: SoundStream::IsEOS was claimed to return true iff the binding is
missing or its nextPos has reached the stream size. Evaluating the code on a
bound voice of a non-empty stream with all data still ahead (nextPos = 0,
streamSizeBytes = 8) returns true, although the claim requires false; the
condition in the source is inverted. -/
theorem c1_isEOS_bound_voice_returns_true :
    let e : SOEntry := { base := 0, next := 0, front := none, back := none, busy := false }
    let st : AudioStreamer :=
      { fileOpen := true, streamSize := 8, streamPos := 0, sampleRate := 44100,
        numChannels := 2, sampleSize := 2, sampleBlockSize := 4 }
    e.next < st.streamSize ∧ soundStreamIsEOS (some e) (some st) = some true := by
  constructor
  · decide
  · rfl

/-- Claim C2, counterexample: MP3Streamer::Seek at in-range byte position 2 on a
stream with block size 4 returns 2, which is not a multiple of the block size,
refuting the claim that every variant returns a multiple of blockSizeBytes. -/
theorem c2_counterexample :
    let s : AudioStreamer :=
      { fileOpen := true, streamSize := 8, streamPos := 0, sampleRate := 44100,
        numChannels := 2, sampleSize := 2, sampleBlockSize := 4 }
    (mp3Seek true s 2).1 = 2 ∧ ¬ ((s.sampleBlockSize.toNat : Nat) ∣ (mp3Seek true s 2).1) := by
  decide

/-- Claim C3, counterexample: on the WAV variant with 8 bytes available, a read
whose underlying `file_read` reports failure (0 bytes produced) returns 0 yet
advances streamPosBytes by 8 (to end of stream), refuting the claim that the
return value always equals the advance of streamPosBytes. -/
theorem c3_counterexample :
    let s : AudioStreamer :=
      { fileOpen := true, streamSize := 8, streamPos := 0, sampleRate := 44100,
        numChannels := 2, sampleSize := 2, sampleBlockSize := 4 }
    let r := wavReadSome s 8 (fun _ => 0)
    s.streamSize - s.streamPos ≠ 0 ∧ r.1 = 0 ∧ r.2.streamPos - s.streamPos = 8 := by
  decide

/-- Claim C4: every variant was claimed to store the returned position in
streamPosBytes after an in-range Seek. MP3Streamer::Seek at in-range position 4
returns 4 but leaves StreamPos at 0: the code repositions only the external
decoder and never updates the field, contradicting its own base-class contract
(Position() reports the decode cursor) and breaking the available-bytes
computation of the following ReadSome. -/
theorem c4_mp3_seek_skips_streampos_update :
    let s : AudioStreamer :=
      { fileOpen := true, streamSize := 8, streamPos := 0, sampleRate := 44100,
        numChannels := 2, sampleSize := 2, sampleBlockSize := 4 }
    ((4 : Int) < s.streamSize) ∧ (mp3Seek true s 4).1 = 4 ∧ (mp3Seek true s 4).2.streamPos = 0 := by
  decide

/-- Claim C5, counterexample: the path "a.wave" carries a four-character extension
whose first three characters are wav; the claim says the first pass matches only
exactly-3-character extensions and must fall through to the header pass here, but
the code compares only the four bytes starting at the dot and classifies the file
as WAV in the first pass. -/
theorem c5_counterexample :
    getAudioFileFormatByExtension [97, 46, 119, 97, 118, 101] = AudioFileFormat.WAV := by
  decide

/-- Claim C6, counterexample: a well-formed RIFF/WAVE file whose fmt chunk is
followed by a 20-payload-byte metadata chunk, with the data chunk (declared size
8) at byte offset 64. The claim says Open scans to the data tag wherever it sits
and records its size; the code checks only the fixed offsets 36 and 60, finds no
data tag, and fails the open. -/
theorem c6_counterexample :
    let f : List Nat := [82, 73, 70, 70, 0, 0, 0, 0, 87, 65, 86, 69,
      102, 109, 116, 32, 16, 0, 0, 0,
      1, 0, 2, 0, 68, 172, 0, 0, 16, 177, 2, 0, 4, 0, 16, 0,
      76, 73, 83, 84, 20, 0, 0, 0,
      0, 0, 0, 0, 0, 0, 0, 0, 0, 0, 0, 0, 0, 0, 0, 0, 0, 0, 0, 0,
      100, 97, 116, 97, 8, 0, 0, 0]
    let s : AudioStreamer :=
      { fileOpen := false, streamSize := 0, streamPos := 0, sampleRate := 0,
        numChannels := 0, sampleSize := 0, sampleBlockSize := 0 }
    (le32 f 0 = tagRIFF ∧ le32 f 8 = tagWAVE ∧ le32 f 64 = tagData ∧ le32 f 68 = 8) ∧
    (wavOpenStream true f s).1 = false ∧ (wavOpenStream true f s).2.streamSize = 0 := by
  decide

/-- Claim C9, counterexample: from a state satisfying the position invariant, the
WAV Seek at unsigned position 2^31 slips past the signed out-of-range guard
(whose int cast makes the position negative) and stores -2^31 in streamPosBytes,
violating 0 ≤ streamPosBytes. -/
theorem c9_counterexample :
    let s : AudioStreamer :=
      { fileOpen := true, streamSize := 8, streamPos := 0, sampleRate := 44100,
        numChannels := 2, sampleSize := 2, sampleBlockSize := 4 }
    (0 ≤ s.streamPos ∧ s.streamPos ≤ s.streamSize) ∧
    (wavSeek s 2147483648).2.streamPos = -2147483648 := by
  constructor
  · decide
  · rfl

/-- Claim C2 (amended): for unsigned positions below 2^31 (where the signed
out-of-range guard behaves as intended) and a positive block size: the WAV Seek
returns a multiple of the block size that is at most p, and 0 when p is at or
beyond the stream size; the MP3 and OGG Seeks return p itself, without aligning
it, when p is in range, and 0 when p is at or beyond the stream size. -/
theorem c2_amended (s : AudioStreamer) (p : Nat) (hp : p < 2147483648)
    (_hb : 0 < s.sampleBlockSize) :
    ((s.sampleBlockSize.toNat ∣ (wavSeek s p).1) ∧ (wavSeek s p).1 ≤ p ∧
      (s.streamSize ≤ (p : Int) → (wavSeek s p).1 = 0)) ∧
    ((mp3Seek true s p).1 = if s.streamSize ≤ (p : Int) then 0 else p) ∧
    ((oggSeek true s p).1 = if s.streamSize ≤ (p : Int) then 0 else p) := by
  have hpw : p < wordMod := lt_trans hp (by norm_num [wordMod])
  have hmod : p % wordMod = p := Nat.mod_eq_of_lt hpw
  have hcast : toInt32 (p % wordMod) = (p : Int) := by rw [hmod]; exact toInt32_of_lt hp
  refine ⟨⟨?_, ?_, ?_⟩, ?_, ?_⟩
  · simp only [wavSeek, hmod, hcast]
    split
    · simp
    · exact dvd_sub_mod p s.sampleBlockSize.toNat
  · simp only [wavSeek, hmod, hcast]
    split
    · simp
    · omega
  · intro hge
    simp [wavSeek, hmod, toInt32_of_lt hp, hge]
  · simp only [mp3Seek, hmod, hcast]
    split <;> simp_all
  · simp only [oggSeek, hmod, hcast]
    split <;> simp_all

/-- Witness for C2 (amended) at a concrete stereo 16-bit stream of 8 bytes and
position 6: the WAV Seek aligns, the MP3 and OGG Seeks return 6 unchanged. -/
theorem c2_amended_witness :
    let s : AudioStreamer :=
      { fileOpen := true, streamSize := 8, streamPos := 0, sampleRate := 44100,
        numChannels := 2, sampleSize := 2, sampleBlockSize := 4 }
    ((s.sampleBlockSize.toNat ∣ (wavSeek s 6).1) ∧ (wavSeek s 6).1 ≤ 6 ∧
      (s.streamSize ≤ (6 : Int) → (wavSeek s 6).1 = 0)) ∧
    ((mp3Seek true s 6).1 = if s.streamSize ≤ (6 : Int) then 0 else 6) ∧
    ((oggSeek true s 6).1 = if s.streamSize ≤ (6 : Int) then 0 else 6) :=
  c2_amended _ 6 (by decide) (by decide)

/-- Claim C3 (amended): with zero bytes available every variant returns 0 and
leaves the state unchanged; otherwise the decoder is asked for exactly
min(maxBytes, available) rounded down to a block multiple, and the MP3 and OGG
variants return exactly the advance of streamPosBytes (the decoder-reported
count, resp. the decode-loop total). The WAV variant instead advances by the full
aligned request whenever its file read reports success, regardless of the byte
count produced, and on a reported failure returns 0 while jumping
streamPosBytes to streamSizeBytes. -/
theorem c3_amended (s : AudioStreamer) (dstSize : Int) (hOpen : s.fileOpen = true)
    (ioRead decRead : Int → Int) (dec : Nat → Int → Int) :
    (s.streamSize - s.streamPos = 0 →
      wavReadSome s dstSize ioRead = (0, s) ∧
      mp3ReadSome true s dstSize decRead = (0, s) ∧
      oggReadSome true s dstSize dec = (0, s)) ∧
    (s.streamSize - s.streamPos ≠ 0 →
      mp3ReadSome true s dstSize decRead =
        (decRead (requestedCount s dstSize),
          { s with streamPos := s.streamPos + decRead (requestedCount s dstSize) }) ∧
      oggReadSome true s dstSize dec =
        (oggDecodeLoop dec (requestedCount s dstSize) 0 0 ((requestedCount s dstSize).toNat + 1),
          { s with streamPos := (s.streamPos +
              oggDecodeLoop dec (requestedCount s dstSize) 0 0
                ((requestedCount s dstSize).toNat + 1)) }) ∧
      (0 < ioRead (requestedCount s dstSize) →
        wavReadSome s dstSize ioRead =
          (requestedCount s dstSize,
            { s with streamPos := s.streamPos + requestedCount s dstSize })) ∧
      (ioRead (requestedCount s dstSize) ≤ 0 →
        wavReadSome s dstSize ioRead = (0, { s with streamPos := s.streamSize }))) := by
  refine ⟨fun h0 => readSome_at_eos h0 dstSize ioRead decRead dec, fun h0 => ?_⟩
  refine ⟨mp3ReadSome_spec hOpen h0 dstSize decRead,
    oggReadSome_spec hOpen h0 dstSize dec, fun hio => ?_, fun hio => ?_⟩
  · rw [wavReadSome_spec hOpen h0 dstSize ioRead, if_neg (not_le.mpr hio)]
  · rw [wavReadSome_spec hOpen h0 dstSize ioRead, if_pos hio]

/-- Witness for C3 (amended) at a concrete stream of 8 bytes with fully
successful oracles: every variant reads all 8 bytes and advances the cursor to 8. -/
theorem c3_amended_witness :
    mp3ReadSome true ⟨true, 8, 0, 44100, 2, 2, 4⟩ 8 (fun n => n) =
      (8, ⟨true, 8, 8, 44100, 2, 2, 4⟩) := by
  have h := (c3_amended ⟨true, 8, 0, 44100, 2, 2, 4⟩
    8 rfl (fun n => n) (fun n => n) (fun _ n => n)).2 (by decide)
  simpa [requestedCount] using h.1

/-- Claim C8: Unload on a loaded SoundBuffer or SoundStream fails and changes
nothing while voices remain bound (refCount positive), and succeeds, freeing the
decode resources, once refCount is zero. -/
theorem c8_unload_requires_zero_refcount (b : SoundBufferState) (st : SoundStreamState)
    (xb xs : XABuffer) (hb : b.xaBuffer = some xb) (hs : st.xaBuffer = some xs) :
    (0 < b.refCount → soundBufferUnload b = (false, b)) ∧
    (b.refCount = 0 → soundBufferUnload b = (true, { b with xaBuffer := none })) ∧
    (0 < st.refCount → soundStreamUnload st = (false, st)) ∧
    (st.refCount = 0 →
      soundStreamUnload st = (true, { st with xaBuffer := none, alStream := none })) := by
  refine ⟨fun h => ?_, fun h => ?_, fun h => ?_, fun h => ?_⟩ <;>
    simp [soundBufferUnload, soundStreamUnload, hb, hs, h]

/-- Witness for C8 on concrete loaded assets: referenced ones refuse to unload,
unreferenced ones unload and drop their resources. -/
theorem c8_unload_witness :
    (soundBufferUnload ⟨some ⟨4⟩, 1⟩ = (false, ⟨some ⟨4⟩, 1⟩)) ∧
    (soundStreamUnload ⟨some ⟨4⟩, none, 0⟩ = (true, ⟨none, none, 0⟩)) := by
  have h := c8_unload_requires_zero_refcount ⟨some ⟨4⟩, 1⟩ ⟨some ⟨4⟩, none, 0⟩ ⟨4⟩ ⟨4⟩ rfl rfl
  exact ⟨h.1 (by decide), h.2.2.2 rfl⟩

/-- Claim C10: when the base (WAV) OpenStream acquires the file but the header
validation fails (empty read, bad RIFF/WAVE magic, or no data chunk at the fixed
offsets), it returns false with the file handle still held: IsOpen reports true,
any retried OpenStream on the instance is rejected as already open, and only
CloseStream clears the handle again. -/
theorem c10_failed_open_keeps_handle (f : List Nat) (s : AudioStreamer)
    (hclosed : s.fileOpen = false)
    (hbad : f.length = 0 ∨ ¬ (le32 f 0 = tagRIFF ∧ le32 f 8 = tagWAVE) ∨
      getDataChunkOff f = none) :
    (wavOpenStream true f s).1 = false ∧
    isOpen (wavOpenStream true f s).2 = true ∧
    (∀ fe2 g, (wavOpenStream fe2 g (wavOpenStream true f s).2).1 = false) ∧
    (closeStream (wavOpenStream true f s).2).fileOpen = false := by
  have hres : wavOpenStream true f s = (false, { s with fileOpen := true }) := by
    by_cases hl : f.length = 0
    · simp [wavOpenStream, hclosed, hl]
    · by_cases hm : le32 f 0 = tagRIFF ∧ le32 f 8 = tagWAVE
      · rcases hbad with h | h | h
        · exact absurd h hl
        · exact absurd hm h
        · simp [wavOpenStream, hclosed, hl, hm, h]
      · simp [wavOpenStream, hclosed, hl, hm]
  refine ⟨by rw [hres], by rw [hres]; rfl, fun fe2 g => ?_, by rw [hres]; rfl⟩
  rw [hres]
  simp [wavOpenStream]

/-- When the last dot sits at a positive index, GetExtension packs the dot and the
three following bytes into a little-endian integer. -/
lemma getExtension_eq {f : List Nat} {i : Nat} (h : lastIndexOf f 46 = some i)
    (h0 : 0 < i) :
    getExtension f = byteAt f i + 256 * byteAt f (i + 1) + 65536 * byteAt f (i + 2) +
      16777216 * byteAt f (i + 3) := by
  cases i with
  | zero => omega
  | succ j => simp [getExtension, h]

/-- Claim C5 (amended): the first classification pass is case-sensitive but
compares only the four bytes starting at the final dot, i.e. exactly the first
three characters of the extension, never checking where the extension ends: any
extension whose first three characters are wav/mp3/ogg (longer ones included) is
classified in the first pass, and only other first-three-character combinations,
the absence of a dot, or a dot at the very start of the path fall through to the
header-sniffing second pass. -/
theorem c5_amended (f : List Nat) (hf : ∀ b ∈ f, b < 256) :
    (lastIndexOf f 46 = none → getAudioFileFormatByExtension f = AudioFileFormat.INVALID) ∧
    (lastIndexOf f 46 = some 0 → getAudioFileFormatByExtension f = AudioFileFormat.INVALID) ∧
    (∀ i, lastIndexOf f 46 = some i → 0 < i → i + 4 ≤ f.length →
      ((getAudioFileFormatByExtension f = AudioFileFormat.WAV ↔
        (byteAt f (i + 1) = 119 ∧ byteAt f (i + 2) = 97 ∧ byteAt f (i + 3) = 118)) ∧
       (getAudioFileFormatByExtension f = AudioFileFormat.MP3 ↔
        (byteAt f (i + 1) = 109 ∧ byteAt f (i + 2) = 112 ∧ byteAt f (i + 3) = 51)) ∧
       (getAudioFileFormatByExtension f = AudioFileFormat.OGG ↔
        (byteAt f (i + 1) = 111 ∧ byteAt f (i + 2) = 103 ∧ byteAt f (i + 3) = 103)))) := by
  refine ⟨fun h => by simp [getAudioFileFormatByExtension, getExtension, h],
    fun h => by simp [getAudioFileFormatByExtension, getExtension, h],
    fun i hi h0 hlen => ?_⟩
  have hdot : byteAt f i = 46 := lastIndexOf_byteAt hi
  have hb1 : byteAt f (i + 1) < 256 := byteAt_lt hf (by omega)
  have hb2 : byteAt f (i + 2) < 256 := byteAt_lt hf (by omega)
  have hb3 : byteAt f (i + 3) < 256 := byteAt_lt hf (by omega)
  have hext := getExtension_eq hi h0
  rw [hdot] at hext
  simp only [getAudioFileFormatByExtension, hext, mciWAV, mciMP3, mciOGG]
  set b1 := byteAt f (i + 1) with hs1
  set b2 := byteAt f (i + 2) with hs2
  set b3 := byteAt f (i + 3) with hs3
  refine ⟨⟨fun hw => ?_, fun hd => ?_⟩, ⟨fun hw => ?_, fun hd => ?_⟩,
    ⟨fun hw => ?_, fun hd => ?_⟩⟩
  · split_ifs at hw <;> omega
  · obtain ⟨d1, d2, d3⟩ := hd
    rw [d1, d2, d3]
    norm_num
  · split_ifs at hw <;> omega
  · obtain ⟨d1, d2, d3⟩ := hd
    rw [d1, d2, d3]
    norm_num
  · split_ifs at hw <;> omega
  · obtain ⟨d1, d2, d3⟩ := hd
    rw [d1, d2, d3]
    norm_num

/-- Witness for C5 (amended) on the concrete path "b.mp3": the first pass
classifies it as MP3 from the three characters after the dot. -/
theorem c5_amended_witness :
    getAudioFileFormatByExtension [98, 46, 109, 112, 51] = AudioFileFormat.MP3 := by
  have h := (c5_amended [98, 46, 109, 112, 51] (by decide)).2.2 1 (by decide)
    (by decide) (by decide)
  exact h.2.1.mpr (by decide)

/-- Claim C6 (amended): OpenStream locates the data chunk only at the two fixed
WAVHEADER offsets 36 and 60, i.e. either immediately after the fmt sub-chunk or
after exactly one interposed chunk whose payload is 16 bytes; when the tag is at
one of those offsets, streamSizeBytes becomes that chunk's declared size, and any
other placement of the data chunk makes the open fail. -/
theorem c6_amended (f : List Nat) (s : AudioStreamer)
    (hclosed : s.fileOpen = false) (hlen : f.length ≠ 0)
    (hmagic : le32 f 0 = tagRIFF ∧ le32 f 8 = tagWAVE) :
    (le32 f 36 = tagData →
      (wavOpenStream true f s).1 = true ∧
      (wavOpenStream true f s).2.streamSize = toInt32 (le32 f 40)) ∧
    (le32 f 36 ≠ tagData → le32 f 60 = tagData →
      (wavOpenStream true f s).1 = true ∧
      (wavOpenStream true f s).2.streamSize = toInt32 (le32 f 64)) ∧
    (le32 f 36 ≠ tagData → le32 f 60 ≠ tagData → (wavOpenStream true f s).1 = false) := by
  refine ⟨fun h36 => ?_, fun h36 h60 => ?_, fun h36 h60 => ?_⟩
  · simp [wavOpenStream, getDataChunkOff, hclosed, hlen, hmagic, h36]
  · simp [wavOpenStream, getDataChunkOff, hclosed, hlen, hmagic, h36, h60]
  · simp [wavOpenStream, getDataChunkOff, hclosed, hlen, hmagic, h36, h60]

/-- Witness for C6 (amended): a concrete RIFF/WAVE file with a 16-payload-byte
chunk between fmt and data; the data chunk at offset 60 declares 8 bytes and the
open succeeds with streamSizeBytes 8. -/
theorem c6_amended_witness :
    let f : List Nat := [82, 73, 70, 70, 0, 0, 0, 0, 87, 65, 86, 69,
      102, 109, 116, 32, 16, 0, 0, 0,
      1, 0, 2, 0, 68, 172, 0, 0, 16, 177, 2, 0, 4, 0, 16, 0,
      76, 73, 83, 84, 16, 0, 0, 0,
      0, 0, 0, 0, 0, 0, 0, 0, 0, 0, 0, 0, 0, 0, 0, 0,
      100, 97, 116, 97, 8, 0, 0, 0]
    let s : AudioStreamer :=
      { fileOpen := false, streamSize := 0, streamPos := 0, sampleRate := 0,
        numChannels := 0, sampleSize := 0, sampleBlockSize := 0 }
    (wavOpenStream true f s).1 = true ∧
    (wavOpenStream true f s).2.streamSize = toInt32 (le32 f 64) := by
  intro f s
  exact (c6_amended f s rfl (by decide) (by decide)).2.1 (by decide) (by decide)

/-- Witness for C10 on a concrete three-byte file with a bad magic: the failed
open leaves the streamer reporting open, rejecting reopens until CloseStream. -/
theorem c10_failed_open_witness :
    let s : AudioStreamer :=
      { fileOpen := false, streamSize := 0, streamPos := 0, sampleRate := 0,
        numChannels := 0, sampleSize := 0, sampleBlockSize := 0 }
    (wavOpenStream true [1, 2, 3] s).1 = false ∧
    isOpen (wavOpenStream true [1, 2, 3] s).2 = true ∧
    (∀ fe2 g, (wavOpenStream fe2 g (wavOpenStream true [1, 2, 3] s).2).1 = false) ∧
    (closeStream (wavOpenStream true [1, 2, 3] s).2).fileOpen = false :=
  c10_failed_open_keeps_handle [1, 2, 3] _ rfl (Or.inr (Or.inl (by decide)))

/-- Claim C9 (amended): starting from any state satisfying the position invariant
0 ≤ streamPosBytes ≤ streamSizeBytes, the invariant is preserved by Close, by a
rejected re-Open, by every Read with a nonnegative destination size (the MP3 and
OGG decoders never reporting more than requested), and by every Seek whose byte
position is below 2^31 — the int cast in the out-of-range guard breaks the
invariant for larger positions, as the counterexample shows. -/
theorem c9_amended (s : AudioStreamer)
    (hInv : 0 ≤ s.streamPos ∧ s.streamPos ≤ s.streamSize)
    (hb : 0 < s.sampleBlockSize)
    (d : Bool) (p : Nat) (hp : p < 2147483648)
    (dstSize : Int) (hdst : 0 ≤ dstSize)
    (ioRead decRead : Int → Int)
    (hdec : 0 ≤ decRead (requestedCount s dstSize) ∧
      decRead (requestedCount s dstSize) ≤ requestedCount s dstSize)
    (dec : Nat → Int → Int) (hogg : ∀ k n, 0 ≤ n → 0 ≤ dec k n ∧ dec k n ≤ n)
    (fileExists : Bool) (f : List Nat) :
    (0 ≤ (wavSeek s p).2.streamPos ∧
      (wavSeek s p).2.streamPos ≤ (wavSeek s p).2.streamSize) ∧
    (0 ≤ (mp3Seek d s p).2.streamPos ∧
      (mp3Seek d s p).2.streamPos ≤ (mp3Seek d s p).2.streamSize) ∧
    (0 ≤ (oggSeek d s p).2.streamPos ∧
      (oggSeek d s p).2.streamPos ≤ (oggSeek d s p).2.streamSize) ∧
    (0 ≤ (wavReadSome s dstSize ioRead).2.streamPos ∧
      (wavReadSome s dstSize ioRead).2.streamPos ≤
        (wavReadSome s dstSize ioRead).2.streamSize) ∧
    (0 ≤ (mp3ReadSome d s dstSize decRead).2.streamPos ∧
      (mp3ReadSome d s dstSize decRead).2.streamPos ≤
        (mp3ReadSome d s dstSize decRead).2.streamSize) ∧
    (0 ≤ (oggReadSome d s dstSize dec).2.streamPos ∧
      (oggReadSome d s dstSize dec).2.streamPos ≤
        (oggReadSome d s dstSize dec).2.streamSize) ∧
    (0 ≤ (closeStream s).streamPos ∧ (closeStream s).streamPos ≤ (closeStream s).streamSize) ∧
    (s.fileOpen = true → (wavOpenStream fileExists f s).2 = s) := by
  have hpw : p < wordMod := lt_trans hp (by norm_num [wordMod])
  have hmod : p % wordMod = p := Nat.mod_eq_of_lt hpw
  have hcast : toInt32 p = (p : Int) := toInt32_of_lt hp
  refine ⟨?_, ?_, ?_, ?_, ?_, ?_, ?_, fun ho => ?_⟩
  · simp only [wavSeek, hmod]
    by_cases hge : s.streamSize ≤ toInt32 p
    · simp only [if_pos hge, Nat.zero_mod, Nat.sub_zero, Nat.zero_sub]
      rw [show toInt32 0 = 0 from rfl]
      exact ⟨le_refl 0, by omega⟩
    · rw [if_neg hge]
      rw [hcast] at hge
      have hsub : p - p % s.sampleBlockSize.toNat ≤ p := Nat.sub_le _ _
      rw [toInt32_of_lt (lt_of_le_of_lt hsub hp)]
      constructor
      · exact Int.ofNat_nonneg _
      · have : ((p - p % s.sampleBlockSize.toNat : Nat) : Int) ≤ (p : Int) := by
          exact_mod_cast hsub
        omega
  · cases d <;> simp [mp3Seek] <;> omega
  · cases d
    · simp [oggSeek]; omega
    · simp only [oggSeek, Bool.not_true, hmod]
      by_cases hge : s.streamSize ≤ toInt32 p
      · simp only [if_pos hge]
        rw [show toInt32 0 = 0 from rfl]
        simp; omega
      · rw [if_neg hge, hcast] at *
        rw [hcast]
        simp
        omega
  · by_cases ho : s.fileOpen = true
    · by_cases h0 : s.streamSize - s.streamPos = 0
      · simp [wavReadSome, ho, h0]; omega
      · rw [wavReadSome_spec ho h0 dstSize ioRead]
        have hrc := requestedCount_bounds hInv.2 hdst hb
        split <;> simp <;> omega
    · have ho2 : s.fileOpen = false := by simpa using ho
      simp [wavReadSome, ho2]; omega
  · cases d
    · simp [mp3ReadSome]; omega
    · by_cases ho : s.fileOpen = true
      · by_cases h0 : s.streamSize - s.streamPos = 0
        · simp [mp3ReadSome, ho, h0]; omega
        · rw [mp3ReadSome_spec ho h0 dstSize decRead]
          have hrc := requestedCount_bounds hInv.2 hdst hb
          simp
          omega
      · have ho2 : s.fileOpen = false := by simpa using ho
        simp [mp3ReadSome, ho2]; omega
  · cases d
    · simp [oggReadSome]; omega
    · by_cases ho : s.fileOpen = true
      · by_cases h0 : s.streamSize - s.streamPos = 0
        · simp [oggReadSome, ho, h0]; omega
        · rw [oggReadSome_spec ho h0 dstSize dec]
          have hrc := requestedCount_bounds hInv.2 hdst hb
          have hloop := oggDecodeLoop_bounds dec hogg (requestedCount s dstSize)
            ((requestedCount s dstSize).toNat + 1) 0 0 (le_refl 0) hrc.1
          simp
          omega
      · have ho2 : s.fileOpen = false := by simpa using ho
        simp [oggReadSome, ho2]; omega
  · by_cases ho : s.fileOpen = true <;> simp [closeStream, ho] <;> omega
  · simp [wavOpenStream, ho]

/-- Witness for C9 (amended) on a concrete open stream and fully cooperative
oracles: Seek to 6, Read of 8 bytes, Close and a rejected re-Open all keep the
cursor inside the stream. -/
theorem c9_amended_witness :
    let s : AudioStreamer := ⟨true, 8, 0, 44100, 2, 2, 4⟩
    (0 ≤ (wavSeek s 6).2.streamPos ∧
      (wavSeek s 6).2.streamPos ≤ (wavSeek s 6).2.streamSize) ∧
    (0 ≤ (oggReadSome true s 8 (fun _ n => n)).2.streamPos ∧
      (oggReadSome true s 8 (fun _ n => n)).2.streamPos ≤
        (oggReadSome true s 8 (fun _ n => n)).2.streamSize) := by
  have h := c9_amended ⟨true, 8, 0, 44100, 2, 2, 4⟩ (by decide) (by decide) true 6 (by decide)
    8 (by decide) (fun n => n) (fun n => n) (by decide)
    (fun _ n => n) (fun k n hn => ⟨hn, le_refl n⟩) true []
  exact ⟨h.1, h.2.2.2.2.2.1⟩

/-- Claim C7: binding a voice to a loaded Stream asset queues exactly one buffer
(the resident first buffer, holding the whole stream) when the total decoded size
is below one buffer capacity (one second of audio), leaving nextPos at
streamSizeBytes immediately; when more than one buffer capacity remains, two
buffers are queued and nextPos is the offset just past the queued data. Stated
for any streamer variant through its Seek/Read steps: the Seek hypothesis only
constrains seeks to the current decode position (the sole seeks the initial load
performs, which WAV, MP3 and OGG all satisfy, MP3 despite never writing
StreamPos), and the Read hypothesis is the shared fully-successful-decoder
behavior of the three ReadSome variants. -/
theorem c7_bind_initial_buffers
    (seekFn : AudioStreamer → Nat → Nat × AudioStreamer)
    (readFn : AudioStreamer → Int → Int × AudioStreamer)
    (st : AudioStreamer)
    (hseek : ∀ t (q : Nat), ((q : Int) = t.streamPos) → seekFn t q = (q, t))
    (hread : ∀ t n, readFn t n =
      (requestedCount t n, { t with streamPos := t.streamPos + requestedCount t n }))
    (_hopen : st.fileOpen = true) (hpos : st.streamPos = 0)
    (hsize : 0 < st.streamSize) (hsize31 : st.streamSize < 2147483648)
    (hrate : 0 < st.sampleRate) (hss : 0 < st.sampleSize) (hch : 0 < st.numChannels)
    (hblk : st.sampleBlockSize = st.sampleSize * st.numChannels)
    (halign : st.sampleBlockSize ∣ st.streamSize) :
    let L := soundStreamLoad seekFn readFn st
    let xa := L.1.getD ⟨0⟩
    let r := loadStreamData seekFn readFn xa L.2 ⟨0, 0, none, none, false⟩ 0
    L.1 = some xa ∧
    bindSource seekFn readFn L.1 L.2 0 = some (r.entry, r.streamer, r.queued, 1) ∧
    r.entry.base = 0 ∧
    (st.streamSize < bytesPerSecond st → r.queued = [xa] ∧ r.entry.next = st.streamSize) ∧
    (bytesPerSecond st < st.streamSize →
      r.queued.length = 2 ∧ r.entry.next = (r.queued.map XABuffer.audioBytes).sum) := by
  have hb : 0 < st.sampleBlockSize := by rw [hblk]; exact mul_pos hss hch
  have hbps : 0 < bytesPerSecond st := mul_pos (mul_pos hrate hch) hss
  have hdvdbps : st.sampleBlockSize ∣ bytesPerSecond st :=
    ⟨st.sampleRate, by rw [hblk, bytesPerSecond]; ring⟩
  have hEOS : streamerIsEOS st = false := by
    rw [streamerIsEOS, hpos]
    exact beq_eq_false_iff_ne.mpr (by omega)
  have hbtr :
      requestedCount st (if bytesPerSecond st < available st then bytesPerSecond st
        else available st) =
      (if bytesPerSecond st < available st then bytesPerSecond st else available st) := by
    have hava : available st = st.streamSize := by rw [available, hpos, sub_zero]
    refine requestedCount_of_dvd ?_ ?_ ?_ hb
    · rw [hava]; split <;> omega
    · rw [hpos, sub_zero, hava]; split <;> omega
    · rw [hava]; split
      · exact hdvdbps
      · exact halign
  have hL : soundStreamLoad seekFn readFn st =
      (some ⟨if bytesPerSecond st < st.streamSize then bytesPerSecond st else st.streamSize⟩,
        { st with streamPos :=
            (if bytesPerSecond st < st.streamSize then bytesPerSecond st
              else st.streamSize) }) := by
    simp only [soundStreamLoad, createXABuffer, hEOS, Bool.false_eq_true, if_false, hread]
    rw [hbtr]
    have hava : available st = st.streamSize := by rw [available, hpos, sub_zero]
    rw [hava, hpos]
    simp
  simp only [hL, Option.getD_some]
  refine ⟨trivial, ?_, ?_, fun hlt => ?_, fun hgt => ?_⟩
  · simp [bindSource]
  · simp [loadStreamData]
  · have hif : (if bytesPerSecond st < st.streamSize then bytesPerSecond st
        else st.streamSize) = st.streamSize := if_neg (by omega)
    rw [hif]
    have hnum : ¬ (bytesPerSecond st < st.streamSize) := by omega
    simp [loadStreamData, bytesPerSecond_set_pos, hnum]
  · have hif : (if bytesPerSecond st < st.streamSize then bytesPerSecond st
        else st.streamSize) = bytesPerSecond st := if_pos hgt
    rw [hif]
    have hWcast : ((wordMod : Nat) : Int) = 4294967296 := by norm_num [wordMod]
    have hq : (((bytesPerSecond st % (wordMod : Int)).toNat : Int) =
        ({ st with streamPos := bytesPerSecond st } : AudioStreamer).streamPos) := by
      have h1 : bytesPerSecond st % (wordMod : Int) = bytesPerSecond st :=
        Int.emod_eq_of_lt (le_of_lt hbps) (by omega)
      rw [h1, Int.toNat_of_nonneg (le_of_lt hbps)]
    have hseek2 := hseek ({ st with streamPos := bytesPerSecond st })
      ((bytesPerSecond st % (wordMod : Int)).toNat) hq
    have hEOS2 : streamerIsEOS ({ st with streamPos := bytesPerSecond st }) = false := by
      rw [streamerIsEOS]
      exact beq_eq_false_iff_ne.mpr (by simp; omega)
    simp [loadStreamData, createXABuffer, bytesPerSecond_set_pos, available_set_pos,
      hgt, hseek2, hEOS2, hread]

/-- Witness for C7 on a concrete 4-byte stereo 16-bit stream whose buffer capacity
is 8 bytes: the initial load queues exactly the one resident buffer and nextPos
lands at streamSizeBytes immediately. -/
theorem c7_bind_initial_buffers_witness :
    let st : AudioStreamer := ⟨true, 4, 0, 2, 2, 2, 4⟩
    let L := soundStreamLoad idealSeek idealRead st
    let xa := L.1.getD ⟨0⟩
    let r := loadStreamData idealSeek idealRead xa L.2 ⟨0, 0, none, none, false⟩ 0
    r.queued = [xa] ∧ r.entry.next = st.streamSize := by
  have h := c7_bind_initial_buffers idealSeek idealRead ⟨true, 4, 0, 2, 2, 2, 4⟩
    (fun t q hq => by simp [idealSeek, hq]) (fun t n => rfl)
    rfl rfl (by decide) (by decide) (by decide) (by decide) (by decide) (by decide)
    ⟨1, by norm_num⟩
  exact h.2.2.2.1 (by decide)

end S3D
